import Mathlib

/-!
Shallow embedding of github.com/pradnyoday/go-json2csv (package json2csv),
covering convert.go, utils.go and types.go.

JSON values decoded by Go's encoding/json with `decoder.UseNumber()` are one
of: nil (JSON null), bool, string, json.Number (the literal text of the
number), []interface{}, map[string]interface{}.  The `Json` inductive below
mirrors this: `num` carries the literal text of the number, `obj` is the
decoded object as an association list (JSON objects decoded by Go have
distinct keys, so first-match lookup coincides with Go map indexing).
-/

namespace Json2Csv

inductive Json where
  | null
  | bool (b : Bool)
  | num (lit : String)
  | str (s : String)
  | arr (elems : List Json)
  | obj (entries : List (String × Json))
deriving Repr

/-- Go `nil` interface values that appear as decoded JSON data are `Json.null`
in the model; a decoded record `map[string]interface{}` is its entry list. -/
abbrev Record := List (String × Json)

/-- Transformer = func(value interface{}, originalRecord map[string]interface{})
(interface{}, error)  (types.go). -/
abbrev Transformer := Json → Record → Except String Json

/-- Field from types.go: JSONPath, CSVHeader, optional Transformer. -/
structure Field where
  jsonPath : String
  csvHeader : String
  transformer : Option Transformer

/-- Options from types.go: Fields, Delimiter (Go rune, zero value 0),
AddHeader (Go bool, zero value false). -/
structure Options where
  fields : List Field
  delimiter : Char
  addHeader : Bool

/-- DefaultDelimiter from types.go. -/
def DefaultDelimiter : Char := ','

/-! ### utils.go: valueToString -/

/-- Entries of a Go map printed by `fmt.Sprintf("%v", ...)` come out sorted by
key; insertion sort on already-stringified values models that. -/
def insertEntry (p : String × String) : List (String × String) → List (String × String)
  | [] => [p]
  | q :: rest => if p.1 ≤ q.1 then p :: q :: rest else q :: insertEntry p rest

def sortEntries : List (String × String) → List (String × String)
  | [] => []
  | p :: rest => insertEntry p (sortEntries rest)

def joinSp : List String → String
  | [] => ""
  | [s] => s
  | s :: t :: rest => s ++ " " ++ joinSp (t :: rest)

mutual
/-- Go `fmt.Sprintf("%v", v)` on a decoded JSON value: `<nil>` for nil,
`true`/`false`, the literal for json.Number, the raw string, `[a b]` for
slices, `map[k1:v1 k2:v2]` (keys sorted) for maps. -/
def goFmtV : Json → String
  | .null => "<nil>"
  | .bool b => if b then "true" else "false"
  | .num lit => lit
  | .str s => s
  | .arr xs => "[" ++ joinSp (goFmtVList xs) ++ "]"
  | .obj kvs =>
      "map[" ++ joinSp ((sortEntries (goFmtVEntries kvs)).map (fun p => p.1 ++ ":" ++ p.2)) ++ "]"

def goFmtVList : List Json → List String
  | [] => []
  | x :: rest => goFmtV x :: goFmtVList rest

def goFmtVEntries : List (String × Json) → List (String × String)
  | [] => []
  | (k, v) :: rest => (k, goFmtV v) :: goFmtVEntries rest
end

/-- valueToString from utils.go.  nil → "", string → itself, bool → %t,
json.Number → its literal text (`v.String()`), anything else (slices, maps)
→ `%v`.  (The float64/int branches of the Go switch are unreachable from
Convert, which decodes with UseNumber.) -/
def valueToString : Json → String
  | .null => ""
  | .str s => s
  | .bool b => if b then "true" else "false"
  | .num lit => lit
  | v => goFmtV v

/-! ### utils.go: getValueByDotPath -/

/-- The `for i, key := range keys` loop of getValueByDotPath (utils.go).
At each key: empty key → error; current value a map → descend if the key
exists, else resolve to nil; current value nil → resolve to nil; current
value a non-map non-nil → nil if more than this key remains, otherwise the
loop ends and the current value itself is returned. -/
def dotPathLoop : Json → List String → Except String Json
  | cur, [] => .ok cur
  | cur, key :: rest =>
      if key = "" then
        .error "json2csv: invalid dot path segment (empty key)"
      else
        match cur with
        | .obj kvs =>
            match kvs.lookup key with
            | some next => dotPathLoop next rest
            | none => .ok .null
        | .null => .ok .null
        | cur => if rest.isEmpty then .ok cur else .ok .null

/-- Go `strings.Split(path, ".")`: cut the path at every '.', keeping empty
pieces, so "a.b" ↦ ["a","b"], "a..b" ↦ ["a","","b"], "a." ↦ ["a",""]. -/
def splitDotAux : List Char → List Char → List String
  | acc, [] => [String.mk acc.reverse]
  | acc, c :: rest =>
      if c = '.' then String.mk acc.reverse :: splitDotAux [] rest
      else splitDotAux (c :: acc) rest

def splitDot (path : String) : List String :=
  splitDotAux [] path.toList

/-- getValueByDotPath from utils.go: empty path returns the data map itself;
otherwise split the path on "." and traverse. -/
def getValueByDotPath (data : Record) (path : String) : Except String Json :=
  if path = "" then .ok (.obj data)
  else dotPathLoop (.obj data) (splitDot path)

/-! ### utils.go: getFlattenArrayPath -/

/-- First index at which `sub` occurs in `s`, as in Go strings.Index
(byte positions; paths in this package are ASCII so char = byte). -/
def findSubAux (sub : List Char) : List Char → Nat → Option Nat
  | [], i => if sub.isPrefixOf ([] : List Char) then some i else none
  | c :: t, i => if sub.isPrefixOf (c :: t) then some i else findSubAux sub t (i + 1)

def strIndex (s pat : String) : Option Nat :=
  findSubAux pat.toList s.toList 0

/-- `field.JSONPath[:starIndex]` with one trailing "." trimmed (utils.go). -/
def basePathBefore (p : String) (i : Nat) : String :=
  let cs := p.toList.take i
  String.mk (if cs.getLast? = some '.' then cs.dropLast else cs)

/-- getFlattenArrayPath from utils.go: first field whose JSONPath contains
"[*]" wins; return the part before the marker, trailing dot trimmed; ""
when no field has the marker. -/
def getFlattenArrayPath : List Field → String
  | [] => ""
  | f :: rest =>
      match strIndex f.jsonPath "[*]" with
      | some i => basePathBefore f.jsonPath i
      | none => getFlattenArrayPath rest

/-- `field.JSONPath[starIndex+len("[*]"):]` with one leading "." stripped
(the inline computation in Convert's row loop). -/
def pathAfterStar (p : String) (i : Nat) : String :=
  let cs := p.toList.drop (i + 3)
  String.mk (if cs.head? = some '.' then cs.tail else cs)

/-! ### convert.go: Convert

Convert(r io.Reader, w io.Writer, options Options) is modelled as a pure
function from the decoded token stream to the rows handed to the csv writer
plus the returned error.  The input stream is one of: entirely empty (EOF at
the first token), a first token that is not `[`, or an array of element
values with a flag recording whether the closing `]` is present. -/

inductive ConvInput where
  | empty
  | nonArray
  | arr (elems : List Json) (closed : Bool)

/-- The observable outcome of Convert: rows actually written (header row
included), in order, and the error returned (none = nil). -/
structure ConvResult where
  rows : List (List String)
  err : Option String
deriving Repr, DecidableEq

/-- encoding/csv validDelim: the writer rejects NUL, quote, CR, LF and
utf8.RuneError as Comma (`csv: invalid field or comma`); every Write checks
this before emitting anything. -/
def validDelim (c : Char) : Bool :=
  c != '\x00' && c != '"' && c != '\r' && c != '\n' && c != '�'

/-- Error returned when no field's JSONPath yields a flatten path. -/
def flatteningRequiredErr : String :=
  "json2csv: flattening is the only supported mode. At least one Field JSONPath must contain marker"

/-- Error returned when the first input token is not the start of an array. -/
def arrayStartErr : String := "json2csv: expected start of json array"

/-- Error returned when the closing bracket of the top-level array is missing. -/
def arrayEndErr : String := "json2csv: unexpected EOF while expecting end of array"

/-- Convert's opening delimiter fix-up: `if options.Delimiter == ',' {
options.Delimiter = DefaultDelimiter }` — the comparison is against ','
(not against the zero value 0), so a zero-valued Delimiter passes through
unchanged. -/
def effectiveDelimiter (options : Options) : Char :=
  if options.delimiter = ',' then DefaultDelimiter else options.delimiter

/-- Convert's AddHeader fix-up: `addHeader := true; if options.AddHeader ==
false { addHeader = false }` — equivalent to AddHeader itself, so the zero
value false disables the header. -/
def effectiveAddHeader (options : Options) : Bool :=
  if options.addHeader = false then false else true

/-- `decoder.Decode(&originalRecord)` on one array element: an object yields
its entries, JSON null leaves the map nil (no error, all lookups miss —
modelled as the empty record); any other value is a decode error. -/
def decodeRecord : Json → Except String Record
  | .obj kvs => .ok kvs
  | .null => .ok []
  | _ => .error "json2csv: failed to decode json object"

/-- The per-field value lookup inside Convert's row loop: a field whose path
contains "[*]" reads the path after the marker from the current array item;
a field without the marker reads its whole path from the original record. -/
def fieldValue (record itemData : Record) (f : Field) : Except String Json :=
  match strIndex f.jsonPath "[*]" with
  | some i =>
      match getValueByDotPath itemData (pathAfterStar f.jsonPath i) with
      | .error e =>
          .error ("json2csv: failed to get value from array item for field " ++ f.jsonPath ++ ": " ++ e)
      | .ok v => .ok v
  | none =>
      match getValueByDotPath record f.jsonPath with
      | .error e =>
          .error ("json2csv: failed to get value from record for field " ++ f.jsonPath ++ ": " ++ e)
      | .ok v => .ok v

/-- One cell of a csv row: the field's value, put through its Transformer
when one is attached (the transformer always runs, also on nil values, and
receives the original record), then rendered with valueToString. -/
def buildCell (record itemData : Record) (f : Field) : Except String String :=
  match fieldValue record itemData f with
  | .error e => .error e
  | .ok value =>
      match f.transformer with
      | some t =>
          match t value record with
          | .error e => .error ("json2csv: failed to transform field " ++ f.jsonPath ++ ": " ++ e)
          | .ok tv => .ok (valueToString tv)
      | none => .ok (valueToString value)

/-- `csvRow := make([]string, len(options.Fields))` filled field by field;
the first failing field aborts before the row is written. -/
def buildRow (record itemData : Record) : List Field → Except String (List String)
  | [] => .ok []
  | f :: fs =>
      match buildCell record itemData f with
      | .error e => .error e
      | .ok c =>
          match buildRow record itemData fs with
          | .error e => .error e
          | .ok cs => .ok (c :: cs)

/-- The item-filtering loop: objects are kept, nil items are skipped, any
other element shape is a fatal error naming the path and index. -/
def itemsOf (fPath : String) : List Json → Nat → Except String (List Record)
  | [], _ => .ok []
  | .obj kvs :: rest, i =>
      match itemsOf fPath rest (i + 1) with
      | .error e => .error e
      | .ok ms => .ok (kvs :: ms)
  | .null :: rest, i => itemsOf fPath rest (i + 1)
  | _ :: _, i =>
      .error ("json2csv: array element at path " ++ fPath ++ " index " ++ toString i ++ " is not a JSON object")

/-- The inner `for _, itemData := range itemsToProcess` loop: rows written so
far stay written when a later row fails to build or to write. -/
def emitRows (delim : Char) (fields : List Field) (record : Record) :
    List Record → List (List String) × Option String
  | [] => ([], none)
  | item :: rest =>
      match buildRow record item fields with
      | .error e => ([], some e)
      | .ok row =>
          if validDelim delim then
            let next := emitRows delim fields record rest
            (row :: next.1, next.2)
          else ([], some "json2csv: failed to write csv row: csv: invalid field or comma")

/-- Processing of one decoded record: resolve the flatten path; nil → skip
(zero rows); non-array non-nil → shape error; filter the items; an empty
item list → skip; otherwise emit one row per item. -/
def processRecord (delim : Char) (fields : List Field) (fPath : String)
    (record : Record) : List (List String) × Option String :=
  match getValueByDotPath record fPath with
  | .error e =>
      ([], some ("json2csv: failed to get array for flattening at path " ++ fPath ++ ": " ++ e))
  | .ok .null => ([], none)
  | .ok (.arr items) =>
      match itemsOf fPath items 0 with
      | .error e => ([], some e)
      | .ok itemMaps =>
          if itemMaps.isEmpty then ([], none)
          else emitRows delim fields record itemMaps
  | .ok _ =>
      ([], some ("json2csv: value at flatten path " ++ fPath ++ " is not an array or null"))

/-- The `for decoder.More()` loop over the top-level array elements; the
first fatal error stops the loop, rows already written are kept. -/
def convLoop (delim : Char) (fields : List Field) (fPath : String) :
    List Json → List (List String) × Option String
  | [] => ([], none)
  | elem :: rest =>
      match decodeRecord elem with
      | .error e => ([], some e)
      | .ok record =>
          match processRecord delim fields fPath record with
          | (rs, some e) => (rs, some e)
          | (rs, none) =>
              let next := convLoop delim fields fPath rest
              (rs ++ next.1, next.2)

/-- Convert from convert.go, in source order: delimiter fix-up, AddHeader
fix-up, header write (fails when the delimiter is invalid), first token
(EOF → return nil; non-`[` → format error), flatten-path detection and the
mandatory-flattening check, the record loop, the closing `]` check. -/
def Convert (input : ConvInput) (options : Options) : ConvResult :=
  let delim := effectiveDelimiter options
  let headerStep : List (List String) × Option String :=
    if effectiveAddHeader options then
      let headerRow := options.fields.map (fun f => f.csvHeader)
      if validDelim delim then ([headerRow], none)
      else ([], some "json2csv: failed to write header: csv: invalid field or comma")
    else ([], none)
  match headerStep with
  | (hrows, some e) => ⟨hrows, some e⟩
  | (hrows, none) =>
      match input with
      | .empty => ⟨hrows, none⟩
      | .nonArray => ⟨hrows, some arrayStartErr⟩
      | .arr elems closed =>
          let fPath := getFlattenArrayPath options.fields
          if fPath = "" then
            ⟨hrows, some flatteningRequiredErr⟩
          else
            let body := convLoop delim options.fields fPath elems
            match body.2 with
            | some e => ⟨hrows ++ body.1, some e⟩
            | none =>
                if closed then ⟨hrows ++ body.1, none⟩
                else ⟨hrows ++ body.1, some arrayEndErr⟩

/-! ## Helper lemmas -/

/-- A decoded value that is neither a mapping nor nil. -/
def nonMapNonNull : Json → Bool
  | .obj _ => false
  | .null => false
  | _ => true

/-- When no key in the list is empty, the dot-path loop never returns an
error: every outcome is `.ok` of some value. -/
theorem dotPathLoop_total : ∀ (keys : List String), "" ∉ keys → ∀ (cur : Json),
    ∃ v, dotPathLoop cur keys = .ok v := by
  intro keys
  induction keys with
  | nil => exact fun _ cur => ⟨cur, rfl⟩
  | cons key rest ih =>
    intro h cur
    have hkey : ¬ key = "" := fun hk => h (by simp [hk])
    have hrest : "" ∉ rest := fun hm => h (List.mem_cons_of_mem _ hm)
    cases cur with
    | null => exact ⟨.null, by simp [dotPathLoop, hkey]⟩
    | obj kvs =>
      cases hl : kvs.lookup key with
      | some next =>
        obtain ⟨v, hv⟩ := ih hrest next
        exact ⟨v, by simp [dotPathLoop, hkey, hl, hv]⟩
      | none => exact ⟨.null, by simp [dotPathLoop, hkey, hl]⟩
    | bool b =>
      refine ⟨if rest.isEmpty then .bool b else .null, ?_⟩
      simp only [dotPathLoop, if_neg hkey]
      split <;> rfl
    | num lit =>
      refine ⟨if rest.isEmpty then .num lit else .null, ?_⟩
      simp only [dotPathLoop, if_neg hkey]
      split <;> rfl
    | str s =>
      refine ⟨if rest.isEmpty then .str s else .null, ?_⟩
      simp only [dotPathLoop, if_neg hkey]
      split <;> rfl
    | arr xs =>
      refine ⟨if rest.isEmpty then .arr xs else .null, ?_⟩
      simp only [dotPathLoop, if_neg hkey]
      split <;> rfl

/-! ## Shared fixtures -/

/-- Field list of spec Scenario A: id, plus tags with the marker at the
path's end. -/
def fieldsA : List Field := [⟨"id", "id", none⟩, ⟨"tags[*]", "tags", none⟩]

/-- Scenario A input: one record whose tags array holds two strings. -/
def scenarioA : ConvInput :=
  .arr [Json.obj [("id", Json.num "1"), ("tags", Json.arr [Json.str "x", Json.str "y"])]] true

/-- Field list used by the items-flattening scenarios. -/
def fieldsItems : List Field := [⟨"id", "id", none⟩, ⟨"items[*].name", "name", none⟩]

/-! ## Claims -/

/-- Claim C1, counterexample.  With a marker-free field list, Convert does
not fail before writing rows: on `[]` it returns the configuration error
only after the header row has been written, and on entirely empty input it
returns no error at all. -/
theorem C1_counterexample :
    Convert (.arr [] true) ⟨[⟨"id", "id", none⟩], ',', true⟩ =
      ⟨[["id"]], some flatteningRequiredErr⟩ ∧
    Convert .empty ⟨[⟨"id", "id", none⟩], ',', true⟩ = ⟨[["id"]], none⟩ := by
  decide

/-- Claim C1 (amended): for every marker-free field list and every input
whose first token reads as the start of an array, Convert fails with the
configuration error before processing any record, but only after the header
row (when enabled) has been written; entirely empty input returns success
instead. -/
theorem C1_amended_thm (options : Options) (elems : List Json) (closed : Bool)
    (hnf : getFlattenArrayPath options.fields = "")
    (hd : validDelim (effectiveDelimiter options) = true) :
    Convert (.arr elems closed) options =
      ⟨if effectiveAddHeader options then [options.fields.map (fun f => f.csvHeader)] else [],
       some flatteningRequiredErr⟩ ∧
    (Convert .empty options).err = none := by
  cases hb : effectiveAddHeader options <;>
    simp [Convert, hb, hd, hnf]

theorem C1_witness :
    getFlattenArrayPath [Field.mk "id" "id" none] = "" ∧
    validDelim (effectiveDelimiter ⟨[⟨"id", "id", none⟩], ',', false⟩) = true ∧
    Convert (.arr [Json.obj [("id", Json.num "7")]] true) ⟨[⟨"id", "id", none⟩], ',', false⟩ =
      ⟨if effectiveAddHeader ⟨[⟨"id", "id", none⟩], ',', false⟩ then
          [[("id" : String)]] else [], some flatteningRequiredErr⟩ :=
  ⟨by decide, by decide,
    (C1_amended_thm ⟨[⟨"id", "id", none⟩], ',', false⟩
      [Json.obj [("id", Json.num "7")]] true (by decide) (by decide)).1⟩

/-- Claim C2, counterexample.  On Scenario A's input with the marker at the
end of "tags[*]", Convert does not succeed with two data rows: it returns an
error and writes no row. -/
theorem C2_counterexample :
    (Convert scenarioA ⟨fieldsA, ',', false⟩).err ≠ none ∧
    (Convert scenarioA ⟨fieldsA, ',', false⟩).rows = [] := by
  decide

/-- Claim C2 (amended): on Scenario A's input, Convert fails with the fatal
array-element shape error at index 0 — the entries of tags are strings, and
every non-mapping, non-null array element is a fatal error — producing no
data rows. -/
theorem C2_amended_thm :
    Convert scenarioA ⟨fieldsA, ',', false⟩ =
      ⟨[], some "json2csv: array element at path tags index 0 is not a JSON object"⟩ := by
  decide

/-- Claim C3: the claim describes the documented intent (a zero-valued
Delimiter defaults to comma), but the code compares the delimiter against
',' instead of against the zero value, so a zero-valued Delimiter reaches
the csv writer unchanged and the very first write fails. -/
theorem C3_zero_delimiter_rejected :
    effectiveDelimiter ⟨[⟨"items[*].x", "x", none⟩], '\x00', true⟩ = '\x00' ∧
    validDelim '\x00' = false ∧
    DefaultDelimiter = ',' ∧
    Convert (.arr [Json.obj [("items", Json.arr [Json.obj []])]] true)
        ⟨[⟨"items[*].x", "x", none⟩], '\x00', true⟩ =
      ⟨[], some "json2csv: failed to write header: csv: invalid field or comma"⟩ := by
  decide

/-- Claim C4: the claim matches the comments in convert.go and types.go
(header defaults to enabled), but the AddHeader fix-up is a tautology, so
the zero value false yields no header row: here the only output row is the
data row. -/
theorem C4_zero_addheader_drops_header :
    effectiveAddHeader ⟨[⟨"items[*].x", "x", none⟩], ',', false⟩ = false ∧
    Convert (.arr [Json.obj [("items", Json.arr [Json.obj [("x", Json.str "v")]])]] true)
        ⟨[⟨"items[*].x", "x", none⟩], ',', false⟩ = ⟨[["v"]], none⟩ := by
  decide

/-- Claim C5, counterexample.  Entirely empty input does not fail: Convert
returns nil after writing the header row. -/
theorem C5_counterexample :
    Convert .empty ⟨[⟨"items[*].x", "x", none⟩], ',', true⟩ = ⟨[["x"]], none⟩ := by
  decide

/-- Claim C5 (amended): an input whose first token is present but is not the
start of an array fails with the format error, while entirely empty input is
treated as success. -/
theorem C5_amended_thm (options : Options)
    (hd : validDelim (effectiveDelimiter options) = true) :
    (Convert .nonArray options).err = some arrayStartErr ∧
    (Convert .empty options).err = none := by
  cases hb : effectiveAddHeader options <;> simp [Convert, hb, hd]

theorem C5_witness :
    validDelim (effectiveDelimiter ⟨fieldsItems, ',', true⟩) = true ∧
    (Convert .nonArray ⟨fieldsItems, ',', true⟩).err = some arrayStartErr ∧
    (Convert .empty ⟨fieldsItems, ',', true⟩).err = none :=
  ⟨by decide,
    (C5_amended_thm ⟨fieldsItems, ',', true⟩ (by decide)).1,
    (C5_amended_thm ⟨fieldsItems, ',', true⟩ (by decide)).2⟩

/-- Claim C6, counterexample.  The path "a.b" has no empty segment, and its
traversal over `\x7b"a": "x"\x7d` meets the non-mapping leaf "x" while the
segment "b" is still unconsumed, yet the resolver returns the leaf itself,
not a null value, and the cell renders as "x", not "". -/
theorem C6_counterexample :
    ("a.b" : String) ≠ "" ∧ "" ∉ splitDot "a.b" ∧
    getValueByDotPath [("a", Json.str "x")] "a.b" = .ok (.str "x") ∧
    getValueByDotPath [("a", Json.str "x")] "a.b" ≠ .ok .null ∧
    valueToString (Json.str "x") ≠ "" :=
  ⟨by decide, by decide, rfl,
   fun h => Json.noConfusion (Except.ok.inj h),
   by decide⟩

/-- Claim C6 (amended): over any container and non-empty dotted path with no
empty segment the resolver never errors; an absent key resolves to null, a
null current value resolves to null, and a non-mapping current value
resolves to null when at least two segments remain — but a non-mapping met
at the final segment is returned as the value itself; null renders as the
empty cell, so absent paths and null intermediates stay indistinguishable. -/
theorem C6_amended_thm :
    (∀ (data : Record) (path : String), path ≠ "" → "" ∉ splitDot path →
        ∃ v, getValueByDotPath data path = .ok v) ∧
    (∀ (kvs : Record) (key : String) (rest : List String), key ≠ "" →
        kvs.lookup key = none → dotPathLoop (.obj kvs) (key :: rest) = .ok .null) ∧
    (∀ (key : String) (rest : List String), key ≠ "" →
        dotPathLoop .null (key :: rest) = .ok .null) ∧
    (∀ (cur : Json) (key k2 : String) (rest : List String), key ≠ "" →
        nonMapNonNull cur = true → dotPathLoop cur (key :: k2 :: rest) = .ok .null) ∧
    valueToString .null = "" := by
  refine ⟨?_, ?_, ?_, ?_, rfl⟩
  · intro data path hp hs
    have := dotPathLoop_total (splitDot path) hs (.obj data)
    simpa [getValueByDotPath, hp] using this
  · intro kvs key rest hk hl
    simp [dotPathLoop, hk, hl]
  · intro key rest hk
    simp [dotPathLoop, hk]
  · intro cur key k2 rest hk hnm
    cases cur <;> simp_all [dotPathLoop, nonMapNonNull]

theorem C6_witness :
    (∃ v, getValueByDotPath [("a", Json.obj [("b", Json.null)])] "a.b.c" = .ok v) ∧
    dotPathLoop (.obj [("a", Json.null)]) ["zz"] = .ok .null ∧
    dotPathLoop .null ["k"] = .ok .null ∧
    dotPathLoop (.str "x") ["k", "m"] = .ok .null ∧
    valueToString .null = "" :=
  ⟨C6_amended_thm.1 [("a", Json.obj [("b", Json.null)])] "a.b.c" (by decide) (by decide),
   C6_amended_thm.2.1 [("a", Json.null)] "zz" [] (by decide) (by rfl),
   C6_amended_thm.2.2.1 "k" [] (by decide),
   C6_amended_thm.2.2.2.1 (.str "x") "k" "m" [] (by decide) (by rfl),
   C6_amended_thm.2.2.2.2⟩

/-- Claim C7, counterexample.  Convert decodes numbers with UseNumber, so a
numeric leaf keeps its source literal: the JSON number 5.00 reaches the
output as the cell "5.00", exactly what the claim forbids. -/
theorem C7_counterexample :
    Convert (.arr [Json.obj [("items", Json.arr [Json.obj [("v", Json.num "5.00")]])]] true)
        ⟨[⟨"items[*].v", "v", none⟩], ',', false⟩ = ⟨[["5.00"]], none⟩ := by
  decide

/-- Claim C7 (amended): a numeric leaf reaching the output untransformed
renders as the number's original JSON literal text, verbatim — trailing
zeros and all — because json.Number carries the literal and valueToString
returns it unchanged. -/
theorem C7_amended_thm : ∀ lit, valueToString (Json.num lit) = lit :=
  fun _ => rfl

theorem C7_witness : valueToString (Json.num "5.00") = "5.00" :=
  C7_amended_thm "5.00"

/-- Filtering a sequence that contains only nil elements keeps nothing and
raises no error. -/
theorem itemsOf_allNull (fPath : String) : ∀ (xs : List Json) (i : Nat),
    (∀ x ∈ xs, x = Json.null) → itemsOf fPath xs i = .ok [] := by
  intro xs
  induction xs with
  | nil => intro i _; rfl
  | cons x rest ih =>
    intro i h
    have hx : x = Json.null := h x (by simp)
    subst hx
    show itemsOf fPath (Json.null :: rest) i = .ok []
    exact ih (i + 1) fun y hy => h y (by simp [hy])

/-- Every row emitted for a record was built from one of its array items. -/
theorem emitRows_mem (delim : Char) (fields : List Field) (record : Record) :
    ∀ (items : List Record) (r : List String),
      r ∈ (emitRows delim fields record items).1 →
      ∃ item, buildRow record item fields = .ok r := by
  intro items
  induction items with
  | nil => intro r hr; simp [emitRows] at hr
  | cons item rest ih =>
    intro r hr
    simp only [emitRows] at hr
    cases hbr : buildRow record item fields with
    | error e => rw [hbr] at hr; simp at hr
    | ok row =>
      rw [hbr] at hr
      by_cases hv : validDelim delim = true
      · simp [hv] at hr
        rcases hr with h | h
        · exact ⟨item, by subst h; exact hbr⟩
        · exact ih r h
      · simp [hv] at hr

/-- Cell i of a successfully built row is the cell built for field i. -/
theorem buildRow_get (record item : Record) :
    ∀ (fields : List Field) (row : List String), buildRow record item fields = .ok row →
      ∀ (i : Nat) (f : Field), fields[i]? = some f →
        ∃ c, buildCell record item f = .ok c ∧ row[i]? = some c := by
  intro fields
  induction fields with
  | nil => intro row _ i f hf; simp at hf
  | cons g gs ih =>
    intro row hrow i f hf
    simp only [buildRow] at hrow
    cases hc : buildCell record item g with
    | error e => rw [hc] at hrow; simp at hrow
    | ok c =>
      rw [hc] at hrow
      cases hcs : buildRow record item gs with
      | error e => rw [hcs] at hrow; simp at hrow
      | ok cs =>
        rw [hcs] at hrow
        injection hrow with hrow
        subst hrow
        cases i with
        | zero =>
          simp at hf
          subst hf
          exact ⟨c, hc, by simp⟩
        | succ n =>
          simp at hf
          obtain ⟨c2, h1, h2⟩ := ih cs hcs n f hf
          exact ⟨c2, h1, by simpa using h2⟩

/-- A field without the marker reads only the original record, so its cell
does not depend on the current array item. -/
theorem buildCell_noStar (record : Record) (f : Field)
    (hm : strIndex f.jsonPath "[*]" = none) (item1 item2 : Record) :
    buildCell record item1 f = buildCell record item2 f := by
  unfold buildCell fieldValue
  rw [hm]

/-- Every row produced for one record comes from building a row for one of
the record's array items. -/
theorem processRecord_mem (delim : Char) (fields : List Field) (fPath : String)
    (record : Record) (r : List String)
    (hr : r ∈ (processRecord delim fields fPath record).1) :
    ∃ item, buildRow record item fields = .ok r := by
  unfold processRecord at hr
  split at hr
  · simp at hr
  · simp at hr
  · split at hr
    · simp at hr
    · next itemMaps _ =>
      by_cases he : itemMaps.isEmpty = true
      · simp [he] at hr
      · rw [if_neg he] at hr
        exact emitRows_mem delim fields record itemMaps r hr
  · simp at hr

/-- Fixture: Scenario C record, id plus an items array with two objects and
one nil element. -/
def recordC : Record :=
  [("id", Json.num "1"),
   ("items", Json.arr [Json.obj [("name", Json.str "a")], Json.null, Json.obj [("name", Json.str "c")]])]

/-- Claim C8: a record whose flatten path resolves to null, to an empty
sequence, or to a sequence of only nil elements yields zero rows and no
error, and the conversion loop continues with the next record. -/
theorem C8_skip_yields_no_rows (delim : Char) (fields : List Field) (fPath : String)
    (elem : Json) (record : Record) (rest : List Json)
    (hdec : decodeRecord elem = .ok record)
    (hres : getValueByDotPath record fPath = .ok .null ∨
            getValueByDotPath record fPath = .ok (.arr []) ∨
            ∃ xs, getValueByDotPath record fPath = .ok (.arr xs) ∧ ∀ x ∈ xs, x = Json.null) :
    processRecord delim fields fPath record = ([], none) ∧
    convLoop delim fields fPath (elem :: rest) = convLoop delim fields fPath rest := by
  have hp : processRecord delim fields fPath record = ([], none) := by
    rcases hres with h | h | ⟨xs, h, hall⟩
    · simp [processRecord, h]
    · simp [processRecord, h, itemsOf]
    · simp [processRecord, h, itemsOf_allNull fPath xs 0 hall]
  refine ⟨hp, ?_⟩
  simp [convLoop, hdec, hp]

theorem C8_witness :
    processRecord ',' fieldsItems "items" [("id", Json.num "3"), ("items", Json.null)] = ([], none) ∧
    convLoop ',' fieldsItems "items"
        (Json.obj [("id", Json.num "3"), ("items", Json.null)] :: [Json.obj recordC]) =
      convLoop ',' fieldsItems "items" [Json.obj recordC] :=
  C8_skip_yields_no_rows ',' fieldsItems "items" _ _ [Json.obj recordC] rfl (Or.inl rfl)

/-- Claim C9: for a record that yields rows, a field whose path has no
marker renders identically in every row derived from that record
(parent-value duplication; transformers in the model are pure functions). -/
theorem C9_parent_duplication (delim : Char) (fields : List Field) (fPath : String)
    (record : Record) (i : Nat) (f : Field)
    (hf : fields[i]? = some f)
    (hm : strIndex f.jsonPath "[*]" = none)
    (r1 r2 : List String)
    (h1 : r1 ∈ (processRecord delim fields fPath record).1)
    (h2 : r2 ∈ (processRecord delim fields fPath record).1) :
    r1[i]? = r2[i]? := by
  obtain ⟨item1, hb1⟩ := processRecord_mem delim fields fPath record r1 h1
  obtain ⟨item2, hb2⟩ := processRecord_mem delim fields fPath record r2 h2
  obtain ⟨c1, hc1, hr1⟩ := buildRow_get record item1 fields r1 hb1 i f hf
  obtain ⟨c2, hc2, hr2⟩ := buildRow_get record item2 fields r2 hb2 i f hf
  have heq : buildCell record item1 f = buildCell record item2 f :=
    buildCell_noStar record f hm item1 item2
  rw [hc1, hc2] at heq
  injection heq with heq
  rw [hr1, hr2, heq]

theorem C9_witness :
    ["1", "a"] ∈ (processRecord ',' fieldsItems "items" recordC).1 ∧
    ["1", "c"] ∈ (processRecord ',' fieldsItems "items" recordC).1 ∧
    (["1", "a"] : List String)[0]? = (["1", "c"] : List String)[0]? :=
  ⟨by decide, by decide,
    C9_parent_duplication ',' fieldsItems "items" recordC 0 ⟨"id", "id", none⟩
      rfl (by decide) ["1", "a"] ["1", "c"] (by decide) (by decide)⟩

/-- Claim C10: when a field carries a Transformer, the row builder invokes
it on every row — also when the field's value resolved to nil — passing the
nil value together with the original record, and the cell holds the
transformer's rendered result rather than the empty string. -/
theorem C10_transformer_on_nil (fields : List Field) (record item : Record)
    (i : Nat) (f : Field) (t : Transformer) (out : Json) (row : List String)
    (hf : fields[i]? = some f)
    (ht : f.transformer = some t)
    (hval : fieldValue record item f = .ok .null)
    (htr : t .null record = .ok out)
    (hrow : buildRow record item fields = .ok row) :
    row[i]? = some (valueToString out) := by
  obtain ⟨c, hc, hri⟩ := buildRow_get record item fields row hrow i f hf
  simp only [buildCell, hval, ht, htr] at hc
  injection hc with h
  rw [hri, ← h]

/-- A transformer that replaces every value by the string "N/A". -/
def naTransformer : Transformer := fun _ _ => .ok (.str "N/A")

theorem C10_witness :
    fieldValue [("id", Json.num "1")] [] ⟨"items[*].missing", "m", some naTransformer⟩ = .ok .null ∧
    naTransformer .null [("id", Json.num "1")] = .ok (.str "N/A") ∧
    buildRow [("id", Json.num "1")] [] [⟨"items[*].missing", "m", some naTransformer⟩] = .ok ["N/A"] ∧
    (["N/A"] : List String)[0]? = some (valueToString (.str "N/A")) :=
  ⟨rfl, rfl, rfl,
    C10_transformer_on_nil [⟨"items[*].missing", "m", some naTransformer⟩]
      [("id", Json.num "1")] [] 0 ⟨"items[*].missing", "m", some naTransformer⟩
      naTransformer (.str "N/A") ["N/A"] rfl rfl rfl rfl rfl⟩

end Json2Csv
